import Mathlib

/-!
Shallow embedding of the particle / incremental-game engine of the
`game-particles` repository, together with proofs about its spec claims.

The repository ships two variants of the engine in
`src/hooks/useParticleAnimation.ts`:
* a "simple" variant (score only, edge wrap-around, population trim), and
* a "full game" variant (currency, upgrades, collectors, edge clamp+bounce,
  no population trim).
Both are embedded below.  JavaScript numbers are modelled as exact rationals
(`ℚ`); `Math.random()` is modelled as an oracle stream `ℕ → ℚ` consumed at an
explicit counter, one draw per source call, in source evaluation order;
`Date.now()` is an explicit `now : ℚ` input; `Math.sqrt` is an oracle
`ℚ → ℚ` parameter (instantiated with an exact square root on the perfect
squares arising in concrete runs).
-/

/-- Colors are structured (`rgba(r, g, b, a)` strings in the source). -/
inductive Color where
  | rgba (r g b : ℕ) (a : ℚ)
deriving DecidableEq

/-- The four particle behaviors of the full game variant. -/
inductive ParticleBehavior where
  | normal
  | seeker
  | avoider
  | collector
deriving DecidableEq

/-- Particle of the full game variant (`interface Particle`, second variant).
Burst particles are created without `isTarget`/`isCollector` (undefined in
JS, hence falsy), modelled as `false`. -/
structure Particle where
  x : ℚ
  y : ℚ
  size : ℚ
  vx : ℚ
  vy : ℚ
  color : Color
  alpha : ℚ
  isTarget : Bool
  isCollector : Bool
  autonomy : ℚ
  behavior : ParticleBehavior
  lastDirectionChange : ℚ
deriving DecidableEq

/-- Particle of the simple variant (`interface Particle`, first variant). -/
structure SParticle where
  x : ℚ
  y : ℚ
  size : ℚ
  vx : ℚ
  vy : ℚ
  color : Color
  alpha : ℚ
  isTarget : Bool
deriving DecidableEq

/-- The `interface GameUpgrades`: integer-valued upgrade levels, stored as JS
numbers (modelled as `ℚ`). -/
structure GameUpgrades where
  maxParticles : ℚ
  particleSize : ℚ
  interactionRadius : ℚ
  targetSpawnRate : ℚ
  autoCollectors : ℚ
  particleSpeed : ℚ
  autonomyLevel : ℚ
deriving DecidableEq

/-- The `interface GameState` of the full game variant, field for field. -/
structure GameState where
  currency : ℚ
  score : ℚ
  level : ℚ
  upgrades : GameUpgrades
  lastUpdate : ℚ
  gameStarted : Bool
  highestCurrency : ℚ
deriving DecidableEq

/-- The initial upgrade levels of the `useState` initializer. -/
def defaultUpgrades : GameUpgrades :=
  { maxParticles := 1
    particleSize := 1
    interactionRadius := 1
    targetSpawnRate := 1
    autoCollectors := 0
    particleSpeed := 1
    autonomyLevel := 0 }

/-- The initial `GameState` of the `useState` initializer (with `lastUpdate`
abstracted to 0; the source stores `Date.now()`). -/
def defaultGameState : GameState :=
  { currency := 0
    score := 0
    level := 1
    upgrades := defaultUpgrades
    lastUpdate := 0
    gameStarted := false
    highestCurrency := 0 }

/-- The seven upgrade identifiers (`keyof GameUpgrades`). -/
inductive UpgradeKey where
  | maxParticles
  | particleSize
  | interactionRadius
  | targetSpawnRate
  | autoCollectors
  | particleSpeed
  | autonomyLevel
deriving DecidableEq

/-- Read the level of one upgrade (`upgrades[upgradeType]`). -/
def GameUpgrades.level (u : GameUpgrades) : UpgradeKey → ℚ
  | .maxParticles => u.maxParticles
  | .particleSize => u.particleSize
  | .interactionRadius => u.interactionRadius
  | .targetSpawnRate => u.targetSpawnRate
  | .autoCollectors => u.autoCollectors
  | .particleSpeed => u.particleSpeed
  | .autonomyLevel => u.autonomyLevel

/-- Source update `{ ...prev.upgrades, [upgradeType]: prev.upgrades[upgradeType] + 1 }`. -/
def GameUpgrades.bump (u : GameUpgrades) : UpgradeKey → GameUpgrades
  | .maxParticles => { u with maxParticles := u.maxParticles + 1 }
  | .particleSize => { u with particleSize := u.particleSize + 1 }
  | .interactionRadius => { u with interactionRadius := u.interactionRadius + 1 }
  | .targetSpawnRate => { u with targetSpawnRate := u.targetSpawnRate + 1 }
  | .autoCollectors => { u with autoCollectors := u.autoCollectors + 1 }
  | .particleSpeed => { u with particleSpeed := u.particleSpeed + 1 }
  | .autonomyLevel => { u with autonomyLevel := u.autonomyLevel + 1 }

/-- An exact rational square root used to instantiate the `Math.sqrt` oracle
in concrete runs: exact whenever numerator and denominator are perfect
squares (all concrete runs below only take square roots of such values,
in particular of `0` and `25`). -/
def mathSqrt (q : ℚ) : ℚ := (Nat.sqrt q.num.toNat : ℚ) / (Nat.sqrt q.den : ℚ)

/-- A constant random oracle used for concrete runs (`Math.random() = 0.5`). -/
def rHalf : ℕ → ℚ := fun _ => 1/2

/-! ## Upgrade cost function (`getUpgradeCost`, ParticleCanvas.tsx) -/

/-- The `baseCosts[upgradeType] || 10` table of `getUpgradeCost`. -/
def baseCost : String → ℚ
  | "maxParticles" => 5
  | "particleSize" => 10
  | "interactionRadius" => 8
  | "targetSpawnRate" => 15
  | "autoCollectors" => 25
  | "particleSpeed" => 12
  | "autonomyLevel" => 20
  | _ => 10

/-- The `scaleFactor[upgradeType] || 1.5` table of `getUpgradeCost`. -/
def scaleFactor : String → ℚ
  | "maxParticles" => 1.5
  | "particleSize" => 1.8
  | "interactionRadius" => 1.6
  | "targetSpawnRate" => 1.7
  | "autoCollectors" => 2.5
  | "particleSpeed" => 1.9
  | "autonomyLevel" => 2.2
  | _ => 1.5

/-- Computes `Math.floor(baseCost * Math.pow(factor, currentLevel))`. -/
def getUpgradeCost (upgradeType : String) (currentLevel : ℕ) : ℤ :=
  ⌊baseCost upgradeType * scaleFactor upgradeType ^ currentLevel⌋

/-! ## Particle population initializer (`initParticles`, full game variant) -/

/-- The effective particle count
`Math.floor(maxParticles * (1 + gameState.upgrades.maxParticles * 0.2))`. -/
def effectiveMaxParticles (maxParticles : ℕ) (upg : GameUpgrades) : ℕ :=
  (⌊(maxParticles : ℚ) * (1 + upg.maxParticles * 0.2)⌋).toNat

/-- The color assigned to a freshly initialized particle, by behavior; the
rational argument is the `Math.random()` draw inside the template string. -/
def initColor : ParticleBehavior → ℚ → Color
  | .collector, r => .rgba 0 255 150 (0.7 + r * 0.3)
  | .seeker, r => .rgba 255 100 50 (0.6 + r * 0.4)
  | .avoider, r => .rgba 150 50 255 (0.6 + r * 0.4)
  | .normal, r => .rgba 0 246 255 (0.5 + r * 0.5)

/-- One loop iteration of `initParticles` (full game variant): particle at
index `i`, drawing 8 random values starting at oracle index `k` in source
evaluation order (autonomy, x, y, size, vx, vy, color alpha, alpha). -/
def mkInitParticle (upg : GameUpgrades) (r : ℕ → ℚ) (k : ℕ) (w h : ℚ)
    (i : ℕ) : Particle :=
  let isCollector : Bool := decide ((i : ℚ) < upg.autoCollectors)
  let behavior : ParticleBehavior :=
    if isCollector then .collector
    else if i % 10 = 0 ∧ upg.autonomyLevel > 2 then .seeker
    else if i % 15 = 0 ∧ upg.autonomyLevel > 3 then .avoider
    else .normal
  let baseAutonomy : ℚ := min 0.8 (upg.autonomyLevel * 0.2)
  let autonomy : ℚ := baseAutonomy * (0.5 + r k * 0.5)
  { x := r (k + 1) * w
    y := r (k + 2) * h
    size := (1 + r (k + 3) * 2) * (1 + upg.particleSize * 0.1)
    vx := (r (k + 4) - 0.5) * 0.5 * upg.particleSpeed
    vy := (r (k + 5) - 0.5) * 0.5 * upg.particleSpeed
    color := initColor behavior (r (k + 6))
    alpha := 0.5 + r (k + 7) * 0.5
    isTarget := decide (i < 3)
    isCollector := isCollector
    autonomy := autonomy
    behavior := behavior
    lastDirectionChange := 0 }

/-- The `initParticles` of the full game variant: rebuilds the whole population
from scratch.  `maxParticles` is the hook option (50 by default, 60 from the
shell), `upg` the upgrade levels the closure reads, `r`/`k` the random
oracle and its counter, `w`/`h` the canvas size. -/
def initParticles (maxParticles : ℕ) (upg : GameUpgrades) (r : ℕ → ℚ)
    (k : ℕ) (w h : ℚ) : List Particle :=
  (List.range (effectiveMaxParticles maxParticles upg)).map
    (fun i => mkInitParticle upg r (k + 8 * i) w h i)

/-! ## Purchase subsystem (`purchaseUpgrade`, full game variant) -/

/-- The command `purchaseUpgrade(upgradeType, cost)`: the `setGameState` functional update
(rejecting when `prev.currency < cost`, otherwise deducting the cost and
bumping the named level) followed by an unconditional `initParticles()`.
The `initParticles` closure reads the render-time `gameState`, so the rebuild
uses the pre-purchase upgrade levels; the old population (`oldParticles`,
i.e. `particlesRef.current`) is discarded either way. -/
def purchaseUpgrade (maxParticles : ℕ) (w h : ℚ) (r : ℕ → ℚ) (k : ℕ)
    (st : GameState) (_oldParticles : List Particle) (upgradeType : UpgradeKey)
    (cost : ℚ) : GameState × List Particle :=
  let newState :=
    if st.currency < cost then st
    else { st with currency := st.currency - cost
                   upgrades := st.upgrades.bump upgradeType }
  (newState, initParticles maxParticles st.upgrades r k w h)

/-! ## Persistence (`saveGameState` / `loadGameState`) -/

/-- JSON values, the image of `JSON.stringify` / preimage of `JSON.parse`.
Numbers are exact rationals. -/
inductive Json where
  | null
  | jbool (b : Bool)
  | jnum (q : ℚ)
  | jstr (s : String)
  | jarr (elems : List Json)
  | jobj (fields : List (String × Json))

/-- Models `localStorage`, a map from keys to stored JSON documents.  (The source
stores the `JSON.stringify` text; printing and reparsing a document without
I/O failure yields the same document, so storage is modelled at the document
level.  Write/read failures are caught in the source and leave state
untouched; the round-trip claim is about the success path.) -/
def Storage : Type := String → Option Json

/-- Models `localStorage.setItem(key, value)`. -/
def setItem (key : String) (v : Json) (s : Storage) : Storage :=
  fun key' => if key' = key then some v else s key'

/-- The `JSON.stringify` image of a `GameUpgrades` object, field for field. -/
def encodeUpgrades (u : GameUpgrades) : Json :=
  .jobj [("maxParticles", .jnum u.maxParticles),
         ("particleSize", .jnum u.particleSize),
         ("interactionRadius", .jnum u.interactionRadius),
         ("targetSpawnRate", .jnum u.targetSpawnRate),
         ("autoCollectors", .jnum u.autoCollectors),
         ("particleSpeed", .jnum u.particleSpeed),
         ("autonomyLevel", .jnum u.autonomyLevel)]

/-- The `JSON.stringify(gameState)` image, field for field in declaration order. -/
def encodeGameState (gs : GameState) : Json :=
  .jobj [("currency", .jnum gs.currency),
         ("score", .jnum gs.score),
         ("level", .jnum gs.level),
         ("upgrades", encodeUpgrades gs.upgrades),
         ("lastUpdate", .jnum gs.lastUpdate),
         ("gameStarted", .jbool gs.gameStarted),
         ("highestCurrency", .jnum gs.highestCurrency)]

/-- Field lookup in a parsed JSON object. -/
def jlookup (key : String) : List (String × Json) → Option Json
  | [] => none
  | (k, v) :: rest => if k = key then some v else jlookup key rest

/-- Read a JSON value as a number. -/
def asNum : Json → Option ℚ
  | .jnum q => some q
  | _ => none

/-- Read a JSON value as a boolean. -/
def asBool : Json → Option Bool
  | .jbool b => some b
  | _ => none

/-- Interpretation of a parsed JSON document as a `GameUpgrades` record (the
source performs no validation: `setGameState(parsedState)` trusts the shape;
this is how the rest of the program reads the parsed object's fields). -/
def decodeUpgrades (j : Json) : Option GameUpgrades :=
  match j with
  | .jobj fields => do
    let mp ← jlookup ("maxParticles") fields >>= asNum
    let ps ← jlookup ("particleSize") fields >>= asNum
    let ir ← jlookup ("interactionRadius") fields >>= asNum
    let tsr ← jlookup ("targetSpawnRate") fields >>= asNum
    let ac ← jlookup ("autoCollectors") fields >>= asNum
    let sp ← jlookup ("particleSpeed") fields >>= asNum
    let al ← jlookup ("autonomyLevel") fields >>= asNum
    pure { maxParticles := mp, particleSize := ps, interactionRadius := ir,
           targetSpawnRate := tsr, autoCollectors := ac, particleSpeed := sp,
           autonomyLevel := al }
  | _ => none

/-- Interpretation of a parsed JSON document as a `GameState` record. -/
def decodeGameState (j : Json) : Option GameState :=
  match j with
  | .jobj fields => do
    let c ← jlookup ("currency") fields >>= asNum
    let sc ← jlookup ("score") fields >>= asNum
    let lv ← jlookup ("level") fields >>= asNum
    let upgJ ← jlookup ("upgrades") fields
    let upg ← decodeUpgrades upgJ
    let lu ← jlookup ("lastUpdate") fields >>= asNum
    let gst ← jlookup ("gameStarted") fields >>= asBool
    let hc ← jlookup ("highestCurrency") fields >>= asNum
    pure { currency := c, score := sc, level := lv, upgrades := upg,
           lastUpdate := lu, gameStarted := gst, highestCurrency := hc }
  | _ => none

/-- Embeds `saveGameState`: `localStorage.setItem('particleGame',
JSON.stringify(gameState))`. -/
def saveGameState (gs : GameState) (s : Storage) : Storage :=
  setItem ("particleGame") (encodeGameState gs) s

/-- Embeds `loadGameState`: read `'particleGame'`; if present and interpretable,
the parsed snapshot replaces the current state wholesale, else (absent key or
parse failure, caught in the source) the current state is kept. -/
def loadGameState (s : Storage) (current : GameState) : GameState :=
  match s ("particleGame") with
  | none => current
  | some j =>
    match decodeGameState j with
    | some parsed => parsed
    | none => current

/-! ## Per-frame simulation step (full game variant) -/

/-- A pointer sample in canvas coordinates. -/
structure MousePt where
  x : ℚ
  y : ℚ
deriving DecidableEq

/-- The pointer-sample selection `scaledMousePosRef.current.x !== 0 ? scaledMousePosRef.current :
mousePositionRef.current` (the ref may be unset). -/
def resolveMouse (scaled : MousePt) (mref : Option MousePt) : Option MousePt :=
  if scaled.x ≠ 0 then some scaled else mref

/-- The per-frame inputs and fixed parameters of `updateParticles`:
hook options, canvas size, `Date.now()`, the frame delta, the resolved
pointer sample and the `Math.sqrt` oracle. -/
structure Ctx where
  maxParticles : ℕ
  interactionRadius : ℚ
  repulsionStrength : ℚ
  targetSpawnRate : ℚ
  w : ℚ
  h : ℚ
  now : ℚ
  delta : ℚ
  mouse : Option MousePt
  sq : ℚ → ℚ

/-- The mutable state a frame acts on: the particle population
(`particlesRef`), the game state, the UI flags, the timing refs, and the
random oracle with its consumption counter. -/
structure FrameSt where
  particles : List Particle
  gs : GameState
  showScore : Bool
  showHint : Bool
  interactionStartTime : ℚ
  targetCollectedTime : ℚ
  rngS : ℕ → ℚ
  k : ℕ

/-- One burst particle of `collectTarget` (gold palette), drawing 5 random
values starting at oracle index `k` (size, vx, vy, color alpha, alpha).
`isTarget`/`isCollector` are not set in the source (undefined, falsy). -/
def mkBurst (r : ℕ → ℚ) (k : ℕ) (x y : ℚ) : Particle :=
  { x := x
    y := y
    size := 1 + r k * 1.5
    vx := (r (k + 1) - 0.5) * 2
    vy := (r (k + 2) - 0.5) * 2
    color := .rgba 255 215 0 (0.7 + r (k + 3) * 0.3)
    alpha := 0.7 + r (k + 4) * 0.3
    isTarget := false
    isCollector := false
    autonomy := 0
    behavior := .normal
    lastDirectionChange := 0 }

/-- The 10 burst particles of one collection, and the advanced counter. -/
def mkBursts (r : ℕ → ℚ) (k : ℕ) (x y : ℚ) : List Particle × ℕ :=
  ((List.range 10).map (fun j => mkBurst r (k + 5 * j) x y), k + 50)

/-- Embeds `collectTarget(index)`: no-op unless the particle at `index` is still a
target; otherwise clears the flag, records the collection time, appends 10
burst particles, and updates currency, score and the high-water mark. -/
def collectTarget (now : ℚ) (st : FrameSt) (index : ℕ) : FrameSt :=
  match st.particles[index]? with
  | none => st
  | some p =>
    if p.isTarget then
      let bursts := mkBursts st.rngS st.k p.x p.y
      { st with
        particles := st.particles.set index { p with isTarget := false } ++ bursts.1
        k := bursts.2
        targetCollectedTime := now
        gs := { st.gs with
                currency := st.gs.currency + 1
                score := st.gs.score + 1
                highestCurrency := max st.gs.highestCurrency (st.gs.currency + 1) } }
    else st

/-- The closest-target scan (`for (const target of targets)`), folding with
`closestDist` initialized to `Infinity` (modelled as `none`) and
`closestTarget` to `targets[0]` (passed as `init`). -/
def closestScan (sq : ℚ → ℚ) (px py : ℚ) (ts : List Particle)
    (init : Particle) : Particle :=
  (ts.foldl
    (fun acc t =>
      let d := sq ((t.x - px) * (t.x - px) + (t.y - py) * (t.y - py))
      match acc.2 with
      | none => (t, some d)
      | some bd => if d < bd then (t, some d) else acc)
    (init, (none : Option ℚ))).1

/-- The autonomous-steering block of the particle loop: gated by
`p.autonomy > 0` and by the randomized cadence
`Date.now() - p.lastDirectionChange > 1000 + Math.random() * 2000` (the
random draw is consumed whenever the autonomy guard holds); inside the gate
the decision timestamp is set and the behavior-specific impulse applied.
Returns the updated particle and oracle counter. -/
def applySteering (sq : ℚ → ℚ) (now speed : ℚ) (r : ℕ → ℚ) (k : ℕ)
    (parts : List Particle) (p : Particle) : Particle × ℕ :=
  if p.autonomy > 0 then
    if now - p.lastDirectionChange > 1000 + r k * 2000 then
      let p0 := { p with lastDirectionChange := now }
      match p.behavior with
      | .seeker =>
        match parts.filter (fun t => t.isTarget) with
        | [] => (p0, k + 1)
        | t :: ts =>
          let ct := closestScan sq p.x p.y (t :: ts) t
          let dx := ct.x - p.x
          let dy := ct.y - p.y
          let dist := sq (dx * dx + dy * dy)
          if dist > 0 then
            ({ p0 with vx := p0.vx + dx / dist * p.autonomy * 0.05 * speed
                       vy := p0.vy + dy / dist * p.autonomy * 0.05 * speed },
             k + 1)
          else (p0, k + 1)
      | .avoider =>
        ({ p0 with vx := p0.vx + (r (k + 1) - 0.5) * p.autonomy * 0.1 * speed
                   vy := p0.vy + (r (k + 2) - 0.5) * p.autonomy * 0.1 * speed },
         k + 3)
      | .collector =>
        match parts.filter (fun t => t.isTarget) with
        | [] =>
          ({ p0 with vx := p0.vx + (r (k + 1) - 0.5) * 0.05 * speed
                     vy := p0.vy + (r (k + 2) - 0.5) * 0.05 * speed },
           k + 3)
        | t :: ts =>
          let ct := closestScan sq p.x p.y (t :: ts) t
          let dx := ct.x - p.x
          let dy := ct.y - p.y
          let dist := sq (dx * dx + dy * dy)
          if dist > 0 then
            ({ p0 with vx := p0.vx + dx / dist * 0.2 * speed
                       vy := p0.vy + dy / dist * 0.2 * speed },
             k + 1)
          else (p0, k + 1)
      | .normal =>
        ({ p0 with vx := p0.vx + (r (k + 1) - 0.5) * p.autonomy * 0.05 * speed
                   vy := p0.vy + (r (k + 2) - 0.5) * p.autonomy * 0.05 * speed },
         k + 3)
    else (p, k + 1)
  else (p, k)

/-- The collector auto-collection scan: the first particle index whose
particle is a target within 30 units of the collector at `(px, py)` is
collected (`break` after the first hit). -/
def collectorScan (sq : ℚ → ℚ) (now : ℚ) (st : FrameSt) (px py : ℚ) :
    FrameSt :=
  match (List.range st.particles.length).find?
      (fun j =>
        match st.particles[j]? with
        | some t =>
          t.isTarget &&
            decide (sq ((t.x - px) * (t.x - px) + (t.y - py) * (t.y - py)) < 30)
        | none => false) with
  | some j => collectTarget now st j
  | none => st

/-- Integration and containment of the full game variant: position advances
by `velocity * normalizedDelta`, friction `*= 0.98` unconditionally, then
positions crossing an edge are clamped to the edge with the perpendicular
velocity multiplied by `-0.7`. -/
def integrateContain (w h nd : ℚ) (p : Particle) : Particle :=
  let x1 := p.x + p.vx * nd
  let y1 := p.y + p.vy * nd
  let vx1 := p.vx * 0.98
  let vy1 := p.vy * 0.98
  let xv :=
    if x1 < 0 then ((0 : ℚ), vx1 * (-0.7))
    else if x1 > w then (w, vx1 * (-0.7))
    else (x1, vx1)
  let yv :=
    if y1 < 0 then ((0 : ℚ), vy1 * (-0.7))
    else if y1 > h then (h, vy1 * (-0.7))
    else (y1, vy1)
  { p with x := xv.1, y := yv.1, vx := xv.2, vy := yv.2 }

/-- Computes `Math.min(delta, 32) / 16`. -/
def normalizedDelta (delta : ℚ) : ℚ := min delta 32 / 16

/-- Steering phase of one particle-loop iteration: the steered particle is
written back into the population (the source mutates it through the `p`
alias) and the oracle counter advances. -/
def steerPhase (ctx : Ctx) (st : FrameSt) (i : ℕ) : FrameSt :=
  match st.particles[i]? with
  | none => st
  | some p =>
    let sp := applySteering ctx.sq ctx.now st.gs.upgrades.particleSpeed
      st.rngS st.k st.particles p
    { st with particles := st.particles.set i sp.1, k := sp.2 }

/-- Collector auto-collection phase of one particle-loop iteration
(`if (p.isCollector) { ... }`). -/
def collectorPhase (ctx : Ctx) (st : FrameSt) (i : ℕ) : FrameSt :=
  match st.particles[i]? with
  | none => st
  | some p =>
    if p.isCollector then collectorScan ctx.sq ctx.now st p.x p.y else st

/-- Pointer phase of one particle-loop iteration (`if (mousePos) { ... }`):
`dx`, `dy` and the distance are computed once; a target within 30 units of
the pointer is collected (`collectTarget(i)` re-checks the flag, so a
collection by the collector scan in the same iteration is not double
counted); within the upgraded interaction radius a repulsive impulse scaled
by the normalized delta is applied.  `dx / distance || 0` is modelled as 0
when the distance is 0 (under real square-root semantics a zero distance
forces `dx = 0`, and `0/0` is `NaN`, which `|| 0` replaces). -/
def pointerPhase (ctx : Ctx) (st : FrameSt) (i : ℕ) : FrameSt :=
  match ctx.mouse with
  | none => st
  | some m =>
    match st.particles[i]? with
    | none => st
    | some p2 =>
      let nd := normalizedDelta ctx.delta
      let dx := p2.x - m.x
      let dy := p2.y - m.y
      let dist := ctx.sq (dx * dx + dy * dy)
      let st' :=
        if p2.isTarget ∧ dist < 30 then collectTarget ctx.now st i else st
      let aR := ctx.interactionRadius * (1 + st.gs.upgrades.interactionRadius * 0.1)
      if dist < aR then
        match st'.particles[i]? with
        | none => st'
        | some p3 =>
          let force := (aR - dist) / aR
          let dirX := if dist = 0 then 0 else dx / dist
          let dirY := if dist = 0 then 0 else dy / dist
          let p3' := { p3 with
            vx := p3.vx + dirX * force * ctx.repulsionStrength * nd
            vy := p3.vy + dirY * force * ctx.repulsionStrength * nd }
          { st' with particles := st'.particles.set i p3' }
      else st'

/-- Integration-and-containment phase of one particle-loop iteration. -/
def integratePhase (ctx : Ctx) (st : FrameSt) (i : ℕ) : FrameSt :=
  match st.particles[i]? with
  | none => st
  | some p4 =>
    { st with particles :=
        st.particles.set i (integrateContain ctx.w ctx.h (normalizedDelta ctx.delta) p4) }

/-- One iteration of the particle loop (`for (let i = 0; ...)`) of the full
game variant: steering, collector auto-collection, pointer collection and
repulsion, then integration and containment.  Mutations through the `p`
alias are modelled by writing back into the list and re-reading it at the
start of each phase (in JS the alias sees each mutation immediately; the
particle's position, read by the collector scan and the pointer phase, is
not modified before the integration phase, and its flags are not modified
by steering or repulsion, so re-reading is equivalent). -/
def updateOne (ctx : Ctx) (st : FrameSt) (i : ℕ) : FrameSt :=
  integratePhase ctx (pointerPhase ctx (collectorPhase ctx (steerPhase ctx st i) i) i) i

/-- Interaction-start detection and HUD latching of `updateParticles`
(full game variant). -/
def interactionPhase (ctx : Ctx) (st : FrameSt) : FrameSt :=
  match ctx.mouse with
  | none => st
  | some m =>
    if m.x ≠ 0 ∧ m.y ≠ 0 then
      let ist := if st.interactionStartTime = 0 then ctx.now
                 else st.interactionStartTime
      let gs := if st.gs.gameStarted then st.gs
                else { st.gs with gameStarted := true }
      let sc := if ctx.now - ist > 1000 then true else st.showScore
      let sh := if ctx.now - ist > 1000 ∧ ctx.now - ist > 2000 then false
                else st.showHint
      { st with interactionStartTime := ist, gs := gs, showScore := sc,
                showHint := sh }
    else st

/-- Target replenishment of `updateParticles` (full game variant): when fewer
than 3 targets exist, one spawn roll against the upgraded rate; on success a
uniformly random index is promoted if it is neither a target nor a
collector.  Random draws are consumed exactly as the short-circuiting source
condition does. -/
def replenishPhase (ctx : Ctx) (st : FrameSt) : FrameSt :=
  let targetCount := st.particles.countP (fun p => p.isTarget)
  if targetCount < 3 then
    if st.rngS st.k < ctx.targetSpawnRate * (1 + st.gs.upgrades.targetSpawnRate * 0.2) then
      let idx := (⌊st.rngS (st.k + 1) * st.particles.length⌋).toNat
      let st' := { st with k := st.k + 2 }
      match st.particles[idx]? with
      | some q =>
        if q.isTarget = false ∧ q.isCollector = false then
          { st' with particles := st.particles.set idx { q with isTarget := true } }
        else st'
      | none => st'
    else { st with k := st.k + 1 }
  else st

/-- The fuel-bounded particle loop (`for (let i = 0; i < particles.length;
i++)`, where the bound is re-read every iteration because collections append
to the array mid-loop).  The fuel passed by `runFrame` never runs out:
see `updLoopF_fuel_irrelevant` and `nuF_updateOne` below. -/
def updLoopF {σ : Type} (upd : σ → ℕ → σ) (len : σ → ℕ) :
    ℕ → ℕ → σ → σ
  | 0, _, st => st
  | fuel + 1, i, st =>
    if i < len st then updLoopF upd len fuel (i + 1) (upd st i) else st

/-- Loop-termination potential: list length plus 10 per flagged element.
Every loop iteration either keeps the list length, or collects a target,
which removes one target flag and appends 10 flagless particles — so this
quantity is invariant across iterations and bounds the total number of
iterations of the length-re-reading loop. -/
def nuGen {α : Type} (flag : α → Bool) (l : List α) : ℕ :=
  l.length + 10 * l.countP flag

/-- Loop-termination potential of the full game variant's particle loop. -/
def nuF (st : FrameSt) : ℕ := nuGen (fun p => p.isTarget) st.particles

/-- Embeds `updateParticles(ctx, delta)` of the full game variant: interaction
detection, target replenishment, then the particle loop.  There is no
population trimming in this variant (drawing, which has no state effect, is
omitted). -/
def runFrame (ctx : Ctx) (st : FrameSt) : FrameSt :=
  let st1 := interactionPhase ctx st
  let st2 := replenishPhase ctx st1
  updLoopF (updateOne ctx) (fun s => s.particles.length) (nuF st2) 0 st2

/-! ## Per-frame simulation step (simple variant) -/

/-- Mutable state of the simple variant's frame: particles, the score
counter, UI flags, timing refs and the random oracle. -/
structure SFrame where
  particles : List SParticle
  score : ℚ
  showScore : Bool
  showHint : Bool
  interactionStartTime : ℚ
  targetCollectedTime : ℚ
  rngS : ℕ → ℚ
  k : ℕ

/-- One burst particle of the simple variant's inline collection effect
(green palette), drawing 5 random values starting at oracle index `k`. -/
def mkSBurst (r : ℕ → ℚ) (k : ℕ) (x y : ℚ) : SParticle :=
  { x := x
    y := y
    size := 1 + r k * 1.5
    vx := (r (k + 1) - 0.5) * 2
    vy := (r (k + 2) - 0.5) * 2
    color := .rgba 0 255 150 (0.7 + r (k + 3) * 0.3)
    alpha := 0.7 + r (k + 4) * 0.3
    isTarget := false }

/-- The 10 burst particles of one simple-variant collection. -/
def mkSBursts (r : ℕ → ℚ) (k : ℕ) (x y : ℚ) : List SParticle × ℕ :=
  ((List.range 10).map (fun j => mkSBurst r (k + 5 * j) x y), k + 50)

/-- Integration and containment of the simple variant: position advances by
the raw velocity (no delta normalization), friction `*= 0.98`, then
positions crossing an edge WRAP to the opposite edge (velocity untouched
by the wrap). -/
def sIntegrateWrap (w h : ℚ) (p : SParticle) : SParticle :=
  let x1 := p.x + p.vx
  let y1 := p.y + p.vy
  let x2 := if x1 < 0 then w else if x1 > w then 0 else x1
  let y2 := if y1 < 0 then h else if y1 > h then 0 else y1
  { p with x := x2, y := y2, vx := p.vx * 0.98, vy := p.vy * 0.98 }

/-- The simple variant's inline collection effect at loop index `i` for the
particle `p` read there: score increment, flag cleared, collection time
recorded, 10 bursts appended. -/
def sCollectAt (now : ℚ) (st : SFrame) (i : ℕ) (p : SParticle) : SFrame :=
  let bursts := mkSBursts st.rngS st.k p.x p.y
  { st with
    score := st.score + 1
    targetCollectedTime := now
    particles := st.particles.set i { p with isTarget := false } ++ bursts.1
    k := bursts.2 }

/-- Pointer phase of one simple-variant loop iteration: inline collection
(score increment, flag cleared, 10 bursts appended) then repulsion (not
scaled by the frame delta in this variant). -/
def sPointerPhase (sq : ℚ → ℚ) (now irad rep : ℚ) (mouse : Option MousePt)
    (st : SFrame) (i : ℕ) : SFrame :=
  match mouse with
  | none => st
  | some m =>
    match st.particles[i]? with
    | none => st
    | some p =>
      let dx := p.x - m.x
      let dy := p.y - m.y
      let dist := sq (dx * dx + dy * dy)
      let stc :=
        if p.isTarget ∧ dist < 30 then sCollectAt now st i p
        else st
      if dist < irad then
        match stc.particles[i]? with
        | none => stc
        | some p2 =>
          let force := (irad - dist) / irad
          let dirX := if dist = 0 then 0 else dx / dist
          let dirY := if dist = 0 then 0 else dy / dist
          let p2' := { p2 with
            vx := p2.vx + dirX * force * rep
            vy := p2.vy + dirY * force * rep }
          { stc with particles := stc.particles.set i p2' }
      else stc

/-- Integration-and-wrap phase of one simple-variant loop iteration. -/
def sIntegratePhase (w h : ℚ) (st : SFrame) (i : ℕ) : SFrame :=
  match st.particles[i]? with
  | none => st
  | some p3 =>
    { st with particles := st.particles.set i (sIntegrateWrap w h p3) }

/-- One iteration of the simple variant's particle loop: inline pointer
collection and repulsion, then integration with wrap-around containment. -/
def sUpdateOne (sq : ℚ → ℚ) (now w h irad rep : ℚ)
    (mouse : Option MousePt) (st : SFrame) (i : ℕ) : SFrame :=
  sIntegratePhase w h (sPointerPhase sq now irad rep mouse st i) i

/-- Interaction-start detection of the simple variant (same latching logic
as the full variant, without the `gameStarted` flag). -/
def sInteractionPhase (now : ℚ) (mouse : Option MousePt) (st : SFrame) :
    SFrame :=
  match mouse with
  | none => st
  | some m =>
    if m.x ≠ 0 ∧ m.y ≠ 0 then
      let ist := if st.interactionStartTime = 0 then now
                 else st.interactionStartTime
      let sc := if now - ist > 1000 then true else st.showScore
      let sh := if now - ist > 1000 ∧ now - ist > 2000 then false
                else st.showHint
      { st with interactionStartTime := ist, showScore := sc, showHint := sh }
    else st

/-- Target replenishment of the simple variant: unscaled spawn rate, and the
randomly chosen index is promoted whenever it is not already a target (no
collector exclusion in this variant). -/
def sReplenishPhase (targetSpawnRate : ℚ) (st : SFrame) : SFrame :=
  let targetCount := st.particles.countP (fun p => p.isTarget)
  if targetCount < 3 then
    if st.rngS st.k < targetSpawnRate then
      let idx := (⌊st.rngS (st.k + 1) * st.particles.length⌋).toNat
      let st' := { st with k := st.k + 2 }
      match st.particles[idx]? with
      | some q =>
        if q.isTarget = false then
          { st' with particles := st.particles.set idx { q with isTarget := true } }
        else st'
      | none => st'
    else { st with k := st.k + 1 }
  else st

/-- Loop-termination potential of the simple variant's loop. -/
def nuS (st : SFrame) : ℕ := nuGen (fun p => p.isTarget) st.particles

/-- The population-trimming step closing the simple variant's frame:
`if (particles.length > maxParticles * 1.5)
   particles.splice(maxParticles, particles.length - maxParticles)`
(i.e. everything past index `maxParticles - 1` is dropped). -/
def trimStep (maxParticles : ℕ) (l : List SParticle) : List SParticle :=
  if (l.length : ℚ) > (maxParticles : ℚ) * 1.5 then l.take maxParticles else l

/-- Embeds `updateParticles` of the simple variant: interaction detection, target
replenishment, the particle loop, then population trimming (drawing
omitted: no state effect). -/
def sRunFrame (sq : ℚ → ℚ) (now w h irad rep tsr : ℚ)
    (maxParticles : ℕ) (mouse : Option MousePt) (st : SFrame) : SFrame :=
  let st1 := sInteractionPhase now mouse st
  let st2 := sReplenishPhase tsr st1
  let st3 := updLoopF (sUpdateOne sq now w h irad rep mouse)
    (fun s => s.particles.length) (nuS st2) 0 st2
  { st3 with particles := trimStep maxParticles st3.particles }

/-! ## Concrete instances used by witnesses and counterexamples -/

/-- A lone target particle used by the collection witness. -/
def c3Particle : Particle :=
  { x := 5, y := 6, size := 1, vx := 0, vy := 0,
    color := Color.rgba 0 246 255 1, alpha := 1,
    isTarget := true, isCollector := false, autonomy := 0,
    behavior := ParticleBehavior.normal, lastDirectionChange := 0 }

/-- A one-particle frame state whose particle is a target. -/
def c3State : FrameSt :=
  { particles := [c3Particle]
    gs := defaultGameState
    showScore := false
    showHint := true
    interactionStartTime := 0
    targetCollectedTime := 0
    rngS := rHalf
    k := 0 }

/-- Frame inputs for the C4 counterexample: the shell's option values except
a population cap of 10, canvas 100 × 100, pointer resting at the canvas
center, constant random oracle 1/2 (so `initParticles` placed every particle
exactly at the pointer and all velocities are zero), exact square root. -/
def c4Ctx : Ctx :=
  { maxParticles := 10, interactionRadius := 150, repulsionStrength := 0.1,
    targetSpawnRate := 0.01, w := 100, h := 100, now := 10000, delta := 16,
    mouse := some { x := 50, y := 50 }, sq := mathSqrt }

/-- The freshly initialized frame state for the C4 counterexample:
`initParticles` with cap 10 and the default upgrades yields
`floor(10 * 1.2) = 12` particles (3 of them targets), all at (50, 50) with
zero velocity under the constant oracle; the counter continues after the
96 draws of initialization.  Every distance arising in this frame is 0, on
which `mathSqrt` is exact. -/
def c4Start : FrameSt :=
  { particles := initParticles 10 defaultUpgrades rHalf 0 100 100
    gs := defaultGameState
    showScore := false
    showHint := true
    interactionStartTime := 0
    targetCollectedTime := 0
    rngS := rHalf
    k := 96 }

/-- A collector particle at the origin whose steering decision is recent
(`lastDirectionChange` equals the current time), used to refute the
every-frame-steering claim. -/
def c6Collector : Particle :=
  { x := 0, y := 0, size := 1, vx := 0, vy := 0,
    color := Color.rgba 0 255 150 1, alpha := 1,
    isTarget := false, isCollector := true, autonomy := 1/2,
    behavior := ParticleBehavior.collector, lastDirectionChange := 100 }

/-- A target at (3, 4), at exact distance 5 from the origin. -/
def c6Target : Particle :=
  { x := 3, y := 4, size := 1, vx := 0, vy := 0,
    color := Color.rgba 255 215 0 1, alpha := 1,
    isTarget := true, isCollector := false, autonomy := 0,
    behavior := ParticleBehavior.normal, lastDirectionChange := 0 }

/-- A collector like `c6Collector` but whose last steering decision is stale
(`lastDirectionChange = 0` at time 5000), so the cadence gate passes. -/
def c6CollectorStale : Particle :=
  { x := 0, y := 0, size := 1, vx := 0, vy := 0,
    color := Color.rgba 0 255 150 1, alpha := 1,
    isTarget := false, isCollector := true, autonomy := 1/2,
    behavior := ParticleBehavior.collector, lastDirectionChange := 0 }

/-- A simple-variant particle one unit inside the left edge moving left at
speed 2, so its integrated position crosses the edge. -/
def c8Particle : SParticle :=
  { x := 1, y := 50, size := 1, vx := -2, vy := 0,
    color := Color.rgba 0 246 255 1, alpha := 1, isTarget := false }

/-- A full-variant particle one unit inside the left edge moving left at
speed 2, used to witness the clamp-and-bounce containment. -/
def c8ParticleFull : Particle :=
  { x := 1, y := 50, size := 1, vx := -2, vy := 0,
    color := Color.rgba 0 246 255 1, alpha := 1,
    isTarget := false, isCollector := false, autonomy := 0,
    behavior := ParticleBehavior.normal, lastDirectionChange := 0 }

/-! ## Spec-side contracts (written from the spec's words, for refutation) -/

/-- Modelled from the spec: "collector: every frame (not gated by the
cadence timer) steers toward nearest target with a larger fixed impulse
`0.2 * speedFactor`".  Stated for the steering block of the particle loop:
whenever a collector has a nearest target at positive distance, its
velocity receives the fixed impulse along the direction to that target —
every frame, with no condition on `lastDirectionChange`. -/
def collectorSteersEveryFrame : Prop :=
  ∀ (sq : ℚ → ℚ) (now speed : ℚ) (r : ℕ → ℚ) (k : ℕ)
    (parts : List Particle) (p : Particle),
    p.behavior = ParticleBehavior.collector →
    ∀ (t : Particle) (ts : List Particle),
      parts.filter (fun q => q.isTarget) = t :: ts →
      let ct := closestScan sq p.x p.y (t :: ts) t
      let dx := ct.x - p.x
      let dy := ct.y - p.y
      let dist := sq (dx * dx + dy * dy)
      dist > 0 →
      (applySteering sq now speed r k parts p).1.vx =
          p.vx + dx / dist * 0.2 * speed ∧
      (applySteering sq now speed r k parts p).1.vy =
          p.vy + dy / dist * 0.2 * speed

/-- Modelled from the spec/claim: the containment contract of C8 — a
particle whose integrated position crosses a canvas edge is clamped to that
edge with the perpendicular post-friction velocity multiplied by `-0.7`
(in the simple variant the position advances by the raw velocity). -/
def clampBounceContract (w h : ℚ) (p q : SParticle) : Prop :=
  (p.x + p.vx < 0 → q.x = 0 ∧ q.vx = p.vx * 0.98 * (-0.7)) ∧
  (p.x + p.vx > w → q.x = w ∧ q.vx = p.vx * 0.98 * (-0.7)) ∧
  (p.y + p.vy < 0 → q.y = 0 ∧ q.vy = p.vy * 0.98 * (-0.7)) ∧
  (p.y + p.vy > h → q.y = h ∧ q.vy = p.vy * 0.98 * (-0.7))

/-! ## Supporting lemmas

The particle loops re-read the array length each iteration while collections
append to it; the potential `nuGen` (length plus 10 per remaining target)
is invariant across iterations, so the fuel passed to `updLoopF` by
`runFrame` / `sRunFrame` can never run out (`updLoopF_fuel_irrelevant`). -/

theorem countP_set_eq {α : Type} (q : α → Bool) (l : List α) :
    ∀ (i : ℕ) (a : α), (∀ b, l[i]? = some b → q a = q b) →
      (l.set i a).countP q = l.countP q := by
  induction l with
  | nil => intro i a _; rfl
  | cons c t ih =>
    intro i a h
    cases i with
    | zero =>
      have hqc : q a = q c := h c (by simp)
      simp [List.countP_cons, hqc]
    | succ n =>
      have h' : ∀ b, t[n]? = some b → q a = q b := by
        intro b hb
        exact h b (by simpa using hb)
      simp [List.countP_cons, ih n a h']

theorem countP_set_collect {α : Type} (q : α → Bool) (l : List α) :
    ∀ (i : ℕ) (a b : α), l[i]? = some b → q b = true → q a = false →
      (l.set i a).countP q + 1 = l.countP q := by
  induction l with
  | nil => intro i a b hb _ _; simp at hb
  | cons c t ih =>
    intro i a b hb hqb hqa
    cases i with
    | zero =>
      have hbc : c = b := by simpa using hb
      subst hbc
      simp [List.countP_cons, hqa, hqb]
    | succ n =>
      have hb' : t[n]? = some b := by simpa using hb
      have := ih n a b hb' hqb hqa
      simp only [List.set_cons_succ, List.countP_cons]
      omega

theorem nuGen_set_eq {α : Type} (flag : α → Bool) (l : List α) (i : ℕ) (a : α)
    (h : ∀ b, l[i]? = some b → flag a = flag b) :
    nuGen flag (l.set i a) = nuGen flag l := by
  unfold nuGen
  rw [List.length_set, countP_set_eq flag l i a h]

theorem nuGen_collect {α : Type} (flag : α → Bool) (l : List α) (i : ℕ)
    (a b : α) (bursts : List α) (hb : l[i]? = some b) (hqb : flag b = true)
    (hqa : flag a = false) (hlen : bursts.length = 10)
    (hflag : bursts.countP flag = 0) :
    nuGen flag (l.set i a ++ bursts) = nuGen flag l := by
  unfold nuGen
  rw [List.length_append, List.countP_append, List.length_set, hlen, hflag]
  have := countP_set_collect flag l i a b hb hqb hqa
  omega

theorem mkBursts_len (r : ℕ → ℚ) (k : ℕ) (x y : ℚ) :
    (mkBursts r k x y).1.length = 10 := by
  simp [mkBursts]

theorem mkBursts_noTargets (r : ℕ → ℚ) (k : ℕ) (x y : ℚ) :
    (mkBursts r k x y).1.countP (fun p => p.isTarget) = 0 := by
  apply List.countP_eq_zero.mpr
  intro a ha
  simp only [mkBursts, List.mem_map, List.mem_range] at ha
  obtain ⟨j, _, rfl⟩ := ha
  simp [mkBurst]

theorem mkSBursts_len (r : ℕ → ℚ) (k : ℕ) (x y : ℚ) :
    (mkSBursts r k x y).1.length = 10 := by
  simp [mkSBursts]

theorem mkSBursts_noTargets (r : ℕ → ℚ) (k : ℕ) (x y : ℚ) :
    (mkSBursts r k x y).1.countP (fun p => p.isTarget) = 0 := by
  apply List.countP_eq_zero.mpr
  intro a ha
  simp only [mkSBursts, List.mem_map, List.mem_range] at ha
  obtain ⟨j, _, rfl⟩ := ha
  simp [mkSBurst]

theorem nuF_collectTarget (now : ℚ) (st : FrameSt) (index : ℕ) :
    nuF (collectTarget now st index) = nuF st := by
  unfold collectTarget
  cases h : st.particles[index]? with
  | none => rfl
  | some p =>
    cases ht : p.isTarget with
    | false => simp [ht]
    | true =>
      simp only [ht, if_true]
      unfold nuF
      exact nuGen_collect _ _ index _ p _ h ht rfl (mkBursts_len _ _ _ _)
        (mkBursts_noTargets _ _ _ _)

theorem applySteering_flags (sq : ℚ → ℚ) (now speed : ℚ) (r : ℕ → ℚ) (k : ℕ)
    (parts : List Particle) (p : Particle) :
    (applySteering sq now speed r k parts p).1.isTarget = p.isTarget ∧
    (applySteering sq now speed r k parts p).1.isCollector = p.isCollector := by
  unfold applySteering
  repeat' split
  all_goals refine ⟨?_, ?_⟩ <;> first
    | rfl
    | (dsimp only; split <;> rfl)

theorem nuF_steerPhase (ctx : Ctx) (st : FrameSt) (i : ℕ) :
    nuF (steerPhase ctx st i) = nuF st := by
  unfold steerPhase
  cases h : st.particles[i]? with
  | none => rfl
  | some p =>
    show nuF { st with particles := _, k := _ } = nuF st
    unfold nuF
    apply nuGen_set_eq
    intro b hb
    rw [h] at hb
    cases hb
    exact (applySteering_flags ctx.sq ctx.now st.gs.upgrades.particleSpeed
      st.rngS st.k st.particles p).1

theorem nuF_collectorScan (sq : ℚ → ℚ) (now : ℚ) (st : FrameSt) (px py : ℚ) :
    nuF (collectorScan sq now st px py) = nuF st := by
  unfold collectorScan
  cases hf : (List.range st.particles.length).find? _ with
  | none => rfl
  | some j => exact nuF_collectTarget now st j

theorem nuF_collectorPhase (ctx : Ctx) (st : FrameSt) (i : ℕ) :
    nuF (collectorPhase ctx st i) = nuF st := by
  unfold collectorPhase
  cases h : st.particles[i]? with
  | none => rfl
  | some p =>
    cases hc : p.isCollector with
    | false => simp [hc]
    | true => simp only [hc, if_true]; exact nuF_collectorScan _ _ _ _ _

theorem nuF_pointerPhase (ctx : Ctx) (st : FrameSt) (i : ℕ) :
    nuF (pointerPhase ctx st i) = nuF st := by
  unfold pointerPhase
  cases hm : ctx.mouse with
  | none => rfl
  | some m =>
    cases h : st.particles[i]? with
    | none => rfl
    | some p2 =>
      simp only []
      set st' := if p2.isTarget ∧ ctx.sq ((p2.x - m.x) * (p2.x - m.x) + (p2.y - m.y) * (p2.y - m.y)) < 30 then
        collectTarget ctx.now st i else st with hst'
      have hnu' : nuF st' = nuF st := by
        rw [hst']
        split
        · exact nuF_collectTarget ctx.now st i
        · rfl
      split
      · cases h3 : st'.particles[i]? with
        | none => exact hnu'
        | some p3 =>
          simp only []
          rw [show nuF { st' with particles := _ } =
            nuGen (fun p => p.isTarget) (st'.particles.set i _) from rfl]
          rw [nuGen_set_eq]
          · exact hnu'
          · intro b hb
            rw [h3] at hb
            cases hb
            rfl
      · exact hnu'

theorem nuF_integratePhase (ctx : Ctx) (st : FrameSt) (i : ℕ) :
    nuF (integratePhase ctx st i) = nuF st := by
  unfold integratePhase
  cases h : st.particles[i]? with
  | none => rfl
  | some p4 =>
    show nuF { st with particles := _ } = nuF st
    unfold nuF
    apply nuGen_set_eq
    intro b hb
    rw [h] at hb
    cases hb
    rfl

theorem nuF_updateOne (ctx : Ctx) (st : FrameSt) (i : ℕ) :
    nuF (updateOne ctx st i) = nuF st := by
  unfold updateOne
  rw [nuF_integratePhase, nuF_pointerPhase, nuF_collectorPhase, nuF_steerPhase]

theorem updLoopF_fuel_irrelevant {σ : Type} (upd : σ → ℕ → σ) (len nu : σ → ℕ)
    (hnu : ∀ s i, nu (upd s i) = nu s) (hlen : ∀ s, len s ≤ nu s) :
    ∀ (f g i : ℕ) (st : σ), nu st ≤ i + f → nu st ≤ i + g →
      updLoopF upd len f i st = updLoopF upd len g i st := by
  intro f
  induction f with
  | zero =>
    intro g i st hf hg
    have hstop : ¬ i < len st := by
      have := hlen st
      omega
    cases g with
    | zero => rfl
    | succ g' => simp [updLoopF, hstop]
  | succ f' ih =>
    intro g i st hf hg
    cases g with
    | zero =>
      have hstop : ¬ i < len st := by
        have := hlen st
        omega
      simp [updLoopF, hstop]
    | succ g' =>
      simp only [updLoopF]
      by_cases hlt : i < len st
      · rw [if_pos hlt, if_pos hlt]
        apply ih
        · rw [hnu]; omega
        · rw [hnu]; omega
      · rw [if_neg hlt, if_neg hlt]

theorem runFrame_fuel_sufficient (ctx : Ctx) (st2 : FrameSt) (g : ℕ)
    (hg : nuF st2 ≤ g) :
    updLoopF (updateOne ctx) (fun s => s.particles.length) (nuF st2) 0 st2 =
      updLoopF (updateOne ctx) (fun s => s.particles.length) g 0 st2 :=
  updLoopF_fuel_irrelevant (updateOne ctx) (fun s => s.particles.length) nuF
    (nuF_updateOne ctx) (fun s => Nat.le_add_right _ _) (nuF st2) g 0 st2
    (by omega) (by omega)

theorem nuS_sCollectAt (now : ℚ) (st : SFrame) (i : ℕ) (p : SParticle)
    (h : st.particles[i]? = some p) (ht : p.isTarget = true) :
    nuS (sCollectAt now st i p) = nuS st := by
  show nuS { st with score := _, targetCollectedTime := _, particles := _, k := _ } = nuS st
  unfold nuS
  exact nuGen_collect _ _ i _ p _ h ht rfl (mkSBursts_len _ _ _ _)
    (mkSBursts_noTargets _ _ _ _)

theorem nuS_sPointerPhase (sq : ℚ → ℚ) (now irad rep : ℚ)
    (mouse : Option MousePt) (st : SFrame) (i : ℕ) :
    nuS (sPointerPhase sq now irad rep mouse st i) = nuS st := by
  unfold sPointerPhase
  cases hm : mouse with
  | none => rfl
  | some m =>
    cases h : st.particles[i]? with
    | none => rfl
    | some p =>
      simp only []
      set stc := if p.isTarget ∧ sq ((p.x - m.x) * (p.x - m.x) + (p.y - m.y) * (p.y - m.y)) < 30 then
        sCollectAt now st i p else st with hstc
      have hnu : nuS stc = nuS st := by
        rw [hstc]
        split
        · rename_i hcond
          exact nuS_sCollectAt now st i p h hcond.1
        · rfl
      split
      · cases h2 : stc.particles[i]? with
        | none => exact hnu
        | some p2 =>
          simp only []
          rw [show nuS { stc with particles := _ } =
            nuGen (fun p => p.isTarget) (stc.particles.set i _) from rfl]
          rw [nuGen_set_eq]
          · exact hnu
          · intro b hb
            rw [h2] at hb
            cases hb
            rfl
      · exact hnu

theorem nuS_sIntegratePhase (w h : ℚ) (st : SFrame) (i : ℕ) :
    nuS (sIntegratePhase w h st i) = nuS st := by
  unfold sIntegratePhase
  cases hp : st.particles[i]? with
  | none => rfl
  | some p3 =>
    show nuS { st with particles := _ } = nuS st
    unfold nuS
    apply nuGen_set_eq
    intro b hb
    rw [hp] at hb
    cases hb
    rfl

theorem nuS_sUpdateOne (sq : ℚ → ℚ) (now w h irad rep : ℚ)
    (mouse : Option MousePt) (st : SFrame) (i : ℕ) :
    nuS (sUpdateOne sq now w h irad rep mouse st i) = nuS st := by
  unfold sUpdateOne
  rw [nuS_sIntegratePhase, nuS_sPointerPhase]

theorem sRunFrame_fuel_sufficient (sq : ℚ → ℚ) (now w h irad rep : ℚ)
    (mouse : Option MousePt) (st2 : SFrame) (g : ℕ) (hg : nuS st2 ≤ g) :
    updLoopF (sUpdateOne sq now w h irad rep mouse)
      (fun s => s.particles.length) (nuS st2) 0 st2 =
    updLoopF (sUpdateOne sq now w h irad rep mouse)
      (fun s => s.particles.length) g 0 st2 :=
  updLoopF_fuel_irrelevant (sUpdateOne sq now w h irad rep mouse)
    (fun s => s.particles.length) nuS (nuS_sUpdateOne sq now w h irad rep mouse)
    (fun s => Nat.le_add_right _ _) (nuS st2) g 0 st2 (by omega) (by omega)

/-! ## Claim theorems -/

/-- Claim C1: for every purchase request `purchaseUpgrade(upgradeType, cost)`
where the current currency is at least `cost`, the resulting game state has
`currency' = currency - cost` and the named upgrade level incremented by 1,
and the particle population is fully reinitialized (rebuilt from scratch by
`initParticles`, discarding the previous population). -/
theorem purchase_success_spec (maxParticles : ℕ) (w h : ℚ) (r : ℕ → ℚ)
    (k : ℕ) (st : GameState) (oldParticles : List Particle)
    (upgradeType : UpgradeKey) (cost : ℚ) (hAfford : cost ≤ st.currency) :
    (purchaseUpgrade maxParticles w h r k st oldParticles upgradeType cost).1.currency =
      st.currency - cost ∧
    (purchaseUpgrade maxParticles w h r k st oldParticles upgradeType cost).1.upgrades.level
      upgradeType = st.upgrades.level upgradeType + 1 ∧
    (purchaseUpgrade maxParticles w h r k st oldParticles upgradeType cost).2 =
      initParticles maxParticles st.upgrades r k w h := by
  have hn : ¬ st.currency < cost := not_lt.mpr hAfford
  unfold purchaseUpgrade
  refine ⟨by simp [hn], ?_, rfl⟩
  simp only [hn, if_false]
  cases upgradeType <;> simp [GameUpgrades.bump, GameUpgrades.level]

/-- Witness for C1 at the spec's own scenario: currency 5, cost 5 — the
purchase is accepted, currency becomes 0, the level increments, and the
population is rebuilt. -/
theorem purchase_success_spec_witness :
    (5 : ℚ) ≤ ({ defaultGameState with currency := 5 } : GameState).currency ∧
    (purchaseUpgrade 2 100 100 rHalf 0 { defaultGameState with currency := 5 }
      [] UpgradeKey.maxParticles 5).1.currency =
      ({ defaultGameState with currency := 5 } : GameState).currency - 5 ∧
    (purchaseUpgrade 2 100 100 rHalf 0 { defaultGameState with currency := 5 }
      [] UpgradeKey.maxParticles 5).1.upgrades.level UpgradeKey.maxParticles =
      ({ defaultGameState with currency := 5 } : GameState).upgrades.level
        UpgradeKey.maxParticles + 1 ∧
    (purchaseUpgrade 2 100 100 rHalf 0 { defaultGameState with currency := 5 }
      [] UpgradeKey.maxParticles 5).2 =
      initParticles 2 ({ defaultGameState with currency := 5 } : GameState).upgrades
        rHalf 0 100 100 := by
  refine ⟨by norm_num [defaultGameState], ?_⟩
  exact purchase_success_spec 2 100 100 rHalf 0
    { defaultGameState with currency := 5 } [] UpgradeKey.maxParticles 5
    (by norm_num [defaultGameState])

/-- Claim C2: for every purchase request where the current currency is
strictly below the cost, the purchase is rejected and the game state —
every field of it — is unchanged. -/
theorem purchase_reject_spec (maxParticles : ℕ) (w h : ℚ) (r : ℕ → ℚ)
    (k : ℕ) (st : GameState) (oldParticles : List Particle)
    (upgradeType : UpgradeKey) (cost : ℚ) (hPoor : st.currency < cost) :
    (purchaseUpgrade maxParticles w h r k st oldParticles upgradeType cost).1 = st := by
  unfold purchaseUpgrade
  simp [hPoor]

/-- Witness for C2 at the spec's own scenario: currency 4, cost 5 — the
purchase is rejected and the state unchanged. -/
theorem purchase_reject_spec_witness :
    ({ defaultGameState with currency := 4 } : GameState).currency < 5 ∧
    (purchaseUpgrade 2 100 100 rHalf 0 { defaultGameState with currency := 4 }
      [] UpgradeKey.autoCollectors 5).1 =
      { defaultGameState with currency := 4 } := by
  refine ⟨by norm_num [defaultGameState], ?_⟩
  exact purchase_reject_spec 2 100 100 rHalf 0
    { defaultGameState with currency := 4 } [] UpgradeKey.autoCollectors 5
    (by norm_num [defaultGameState])

/-- Claim C10: `purchaseUpgrade` runs `initParticles()` unconditionally
after the state update, so even a rejected purchase (currency below cost)
leaves the game state untouched yet fully rebuilds the particle population,
discarding whatever population existed before. -/
theorem purchase_always_reinitializes (maxParticles : ℕ) (w h : ℚ)
    (r : ℕ → ℚ) (k : ℕ) (st : GameState) (oldParticles : List Particle)
    (upgradeType : UpgradeKey) (cost : ℚ) :
    (purchaseUpgrade maxParticles w h r k st oldParticles upgradeType cost).2 =
      initParticles maxParticles st.upgrades r k w h ∧
    (st.currency < cost →
      (purchaseUpgrade maxParticles w h r k st oldParticles upgradeType cost).1 = st ∧
      (purchaseUpgrade maxParticles w h r k st oldParticles upgradeType cost).2 =
        initParticles maxParticles st.upgrades r k w h) := by
  refine ⟨rfl, fun hPoor => ⟨?_, rfl⟩⟩
  unfold purchaseUpgrade
  simp [hPoor]

/-- Witness for C10: a rejected purchase (currency 4, cost 5) still rebuilds
the particle population from scratch. -/
theorem purchase_always_reinitializes_witness :
    ({ defaultGameState with currency := 4 } : GameState).currency < 5 ∧
    ((purchaseUpgrade 2 100 100 rHalf 0 { defaultGameState with currency := 4 }
        (initParticles 2 defaultUpgrades rHalf 7 100 100) UpgradeKey.particleSize 5).1 =
      { defaultGameState with currency := 4 } ∧
     (purchaseUpgrade 2 100 100 rHalf 0 { defaultGameState with currency := 4 }
        (initParticles 2 defaultUpgrades rHalf 7 100 100) UpgradeKey.particleSize 5).2 =
      initParticles 2 ({ defaultGameState with currency := 4 } : GameState).upgrades
        rHalf 0 100 100) := by
  refine ⟨by norm_num [defaultGameState], ?_⟩
  exact (purchase_always_reinitializes 2 100 100 rHalf 0
    { defaultGameState with currency := 4 }
    (initParticles 2 defaultUpgrades rHalf 7 100 100) UpgradeKey.particleSize 5).2
    (by norm_num [defaultGameState])

/-- Claim C3: collecting a particle that is currently a target increments
score and currency by exactly 1, clears the flag, appends exactly 10 burst
particles and updates the currency high-water mark; `collectTarget` on an
index whose particle is no longer a target is a no-op, so re-invoking it on
the just-collected index changes nothing. -/
theorem collect_target_spec (st : FrameSt) (i : ℕ) (p : Particle)
    (now now2 : ℚ) (h : st.particles[i]? = some p) (ht : p.isTarget = true) :
    (collectTarget now st i).gs.score = st.gs.score + 1 ∧
    (collectTarget now st i).gs.currency = st.gs.currency + 1 ∧
    (collectTarget now st i).gs.highestCurrency =
      max st.gs.highestCurrency (st.gs.currency + 1) ∧
    (collectTarget now st i).particles =
      st.particles.set i { p with isTarget := false } ++
        (mkBursts st.rngS st.k p.x p.y).1 ∧
    (collectTarget now st i).particles.length = st.particles.length + 10 ∧
    (∀ (st2 : FrameSt) (j : ℕ) (q : Particle) (now3 : ℚ),
      st2.particles[j]? = some q → q.isTarget = false →
      collectTarget now3 st2 j = st2) ∧
    collectTarget now2 (collectTarget now st i) i = collectTarget now st i := by
  have hlt : i < st.particles.length := (List.getElem?_eq_some.mp h).1
  have hnoop : ∀ (st2 : FrameSt) (j : ℕ) (q : Particle) (now3 : ℚ),
      st2.particles[j]? = some q → q.isTarget = false →
      collectTarget now3 st2 j = st2 := by
    intro st2 j q now3 hq hqt
    unfold collectTarget
    rw [hq]
    simp [hqt]
  have hmain : (collectTarget now st i).particles =
      st.particles.set i { p with isTarget := false } ++
        (mkBursts st.rngS st.k p.x p.y).1 := by
    unfold collectTarget
    rw [h]
    simp [ht]
  have hcleared : (collectTarget now st i).particles[i]? =
      some { p with isTarget := false } := by
    rw [hmain]
    rw [List.getElem?_append, if_pos (by rw [List.length_set]; exact hlt)]
    simp [List.getElem?_set_self', hlt]
  refine ⟨?_, ?_, ?_, hmain, ?_, hnoop, ?_⟩
  · unfold collectTarget; rw [h]; simp [ht]
  · unfold collectTarget; rw [h]; simp [ht]
  · unfold collectTarget; rw [h]; simp [ht, max_def]
  · rw [hmain, List.length_append, List.length_set, mkBursts_len]
  · exact hnoop (collectTarget now st i) i { p with isTarget := false } now2
      hcleared rfl

/-- Witness for C3 on a one-particle state whose particle is a target:
score goes to 1 and the population to 11. -/
theorem collect_target_spec_witness :
    c3State.particles[0]? = some c3Particle ∧
    c3Particle.isTarget = true ∧
    (collectTarget 1000 c3State 0).gs.score = c3State.gs.score + 1 ∧
    (collectTarget 1000 c3State 0).particles.length = 11 := by
  refine ⟨rfl, rfl, ?_⟩
  have h := collect_target_spec c3State 0 c3Particle 1000 2000 rfl rfl
  refine ⟨h.1, ?_⟩
  rw [h.2.2.2.2.1]
  rfl

/-- Every base cost of `getUpgradeCost` is at least 5 (the cheapest,
`maxParticles`), the fallback included. -/
theorem baseCost_ge_five (t : String) : 5 ≤ baseCost t := by
  unfold baseCost
  split <;> norm_num

/-- Every growth factor of `getUpgradeCost` is at least 1.5 (the shallowest,
`maxParticles`), the fallback included. -/
theorem scaleFactor_ge (t : String) : 3 / 2 ≤ scaleFactor t := by
  unfold scaleFactor
  split <;> norm_num

/-- Claim C5: the cost function `cost(id, L) = floor(baseCost[id] *
scaleFactor[id]^L)` is strictly increasing in the level for every upgrade
id, with the per-type base costs and growth factors of the source
(`maxParticles`: base 5, factor 1.5; `autoCollectors`: base 25, factor 2.5,
the most expensive and steepest). -/
theorem upgrade_cost_strict_mono :
    (∀ (upgradeType : String) (level : ℕ),
      getUpgradeCost upgradeType level < getUpgradeCost upgradeType (level + 1)) ∧
    getUpgradeCost ("maxParticles") 0 = 5 ∧
    getUpgradeCost ("maxParticles") 1 = 7 ∧
    getUpgradeCost ("autoCollectors") 0 = 25 ∧
    getUpgradeCost ("autoCollectors") 1 = 62 := by
  refine ⟨?_, ?_, ?_, ?_, ?_⟩
  · intro t L
    have hb := baseCost_ge_five t
    have hf := scaleFactor_ge t
    have hpow : (1 : ℚ) ≤ scaleFactor t ^ L := by
      induction L with
      | zero => norm_num
      | succ n ih => rw [pow_succ]; nlinarith
    have hp : (5 : ℚ) ≤ baseCost t * scaleFactor t ^ L := by nlinarith
    have h2 : baseCost t * scaleFactor t ^ L + 2 ≤
        baseCost t * scaleFactor t ^ (L + 1) := by
      rw [pow_succ, ← mul_assoc]
      nlinarith
    have h3 : ⌊baseCost t * scaleFactor t ^ L⌋ + 2 ≤
        ⌊baseCost t * scaleFactor t ^ (L + 1)⌋ := by
      have hfl := Int.floor_le_floor h2
      rw [show (2 : ℚ) = ((2 : ℤ) : ℚ) by norm_num, Int.floor_add_int] at hfl
      exact hfl
    unfold getUpgradeCost
    omega
  · with_unfolding_all decide
  · with_unfolding_all decide
  · with_unfolding_all decide
  · with_unfolding_all decide

/-- Claim C9: saving a game state to storage and loading it back yields a
state whose currency, score and upgrades are identical to the saved ones
(the save→load round trip is the identity on these fields, whatever was in
storage before and whatever the in-memory state at load time). -/
theorem save_load_roundtrip (gs : GameState) (s : Storage)
    (current : GameState) :
    (loadGameState (saveGameState gs s) current).currency = gs.currency ∧
    (loadGameState (saveGameState gs s) current).score = gs.score ∧
    (loadGameState (saveGameState gs s) current).upgrades = gs.upgrades := by
  have hdec : decodeGameState (encodeGameState gs) = some gs := rfl
  have hload : loadGameState (saveGameState gs s) current = gs := by
    unfold loadGameState saveGameState setItem
    simp [hdec]
  rw [hload]
  exact ⟨rfl, rfl, rfl⟩

/-- Counterexample to C4: the full game variant's frame has no trimming
step.  One frame from a freshly initialized population (cap 10, default
upgrades: 12 particles, effective cap 12, all particles at the resting
pointer) collects the 3 initial targets and a replenished one, appending 40
burst particles: 42 particles remain after the frame, far above
`1.5 × effectiveMaxParticles = 18`. -/
theorem trim_bound_counterexample :
    c4Start.particles.length = 12 ∧
    effectiveMaxParticles c4Ctx.maxParticles c4Start.gs.upgrades = 12 ∧
    (runFrame c4Ctx c4Start).particles.length = 42 ∧
    ¬ (((runFrame c4Ctx c4Start).particles.length : ℚ) ≤
        1.5 * (effectiveMaxParticles c4Ctx.maxParticles c4Start.gs.upgrades : ℚ)) := by
  with_unfolding_all decide

/-- Claim C4 as amended: in the simple variant — the one that has the
trimming step — the particle count after trimming is at most
`1.5 × maxParticles` (its cap), for every frame from every state; the full
game variant performs no trimming and its population can exceed
`1.5 × effectiveMaxParticles` (see the counterexample). -/
theorem trim_bound_simple_variant (sq : ℚ → ℚ) (now w h irad rep tsr : ℚ)
    (maxParticles : ℕ) (mouse : Option MousePt) (st : SFrame) :
    ((sRunFrame sq now w h irad rep tsr maxParticles mouse st).particles.length : ℚ) ≤
      (maxParticles : ℚ) * 1.5 := by
  have hm15 : (maxParticles : ℚ) ≤ (maxParticles : ℚ) * 1.5 := by
    have hm0 : (0 : ℚ) ≤ (maxParticles : ℚ) := Nat.cast_nonneg _
    nlinarith
  have htrim : ∀ l : List SParticle,
      ((trimStep maxParticles l).length : ℚ) ≤ (maxParticles : ℚ) * 1.5 := by
    intro l
    unfold trimStep
    split
    · have hlen : (l.take maxParticles).length ≤ maxParticles := by
        rw [List.length_take]
        omega
      have : ((l.take maxParticles).length : ℚ) ≤ (maxParticles : ℚ) :=
        Nat.cast_le.mpr hlen
      linarith
    · rename_i hle
      push_neg at hle
      exact hle
  exact htrim _

/-- Counterexample to C6: in the source the collector branch sits inside the
`p.autonomy > 0` guard and the randomized cadence gate, so a collector whose
last steering decision is recent receives no impulse this frame even though
a target sits at distance 5; the claimed every-frame impulse `0.2 * speed`
along the direction to the target is nonzero, refuting the claim. -/
theorem collector_gating_counterexample : ¬ collectorSteersEveryFrame := by
  intro hclaim
  have h := hclaim mathSqrt 100 1 rHalf 0 [c6Target] c6Collector rfl c6Target []
    (by with_unfolding_all decide) (by with_unfolding_all decide)
  exact absurd h.1 (by with_unfolding_all decide)

/-- Claim C6 as amended: a collector's steering is gated exactly like the
other behaviors — it runs only when `autonomy > 0` and at least
`1000 + U(0,2000)` ms have passed since its last decision; inside the gate,
with a target present at positive distance, it receives the fixed impulse
`0.2 * speedFactor` toward the nearest target (and refreshes its decision
timestamp); when the cadence gate fails the particle is returned unchanged
(one random draw is still consumed by the gate). -/
theorem collector_steering_gated (sq : ℚ → ℚ) (now speed : ℚ) (r : ℕ → ℚ)
    (k : ℕ) (parts : List Particle) (p : Particle)
    (hb : p.behavior = ParticleBehavior.collector)
    (ha : 0 < p.autonomy)
    (t : Particle) (ts : List Particle)
    (hf : parts.filter (fun q => q.isTarget) = t :: ts) :
    (now - p.lastDirectionChange > 1000 + r k * 2000 →
      let ct := closestScan sq p.x p.y (t :: ts) t
      let dx := ct.x - p.x
      let dy := ct.y - p.y
      let dist := sq (dx * dx + dy * dy)
      dist > 0 →
      applySteering sq now speed r k parts p =
        ({ p with vx := p.vx + dx / dist * 0.2 * speed
                  vy := p.vy + dy / dist * 0.2 * speed
                  lastDirectionChange := now }, k + 1)) ∧
    (¬ (now - p.lastDirectionChange > 1000 + r k * 2000) →
      applySteering sq now speed r k parts p = (p, k + 1)) := by
  constructor
  · intro hgate
    dsimp only
    intro hdist
    unfold applySteering
    rw [if_pos ha, if_pos hgate]
    simp only [hb, hf]
    rw [if_pos hdist]
  · intro hgate
    unfold applySteering
    rw [if_pos ha, if_neg hgate]

/-- Witness for the amended C6: a stale collector (gate passes at time 5000)
with the lone target at (3, 4) receives exactly the impulse
`(3/5, 4/5) * 0.2` and its decision timestamp refreshes. -/
theorem collector_steering_gated_witness :
    applySteering mathSqrt 5000 1 rHalf 0 [c6Target] c6CollectorStale =
      ({ c6CollectorStale with vx := 3/25, vy := 4/25,
                               lastDirectionChange := 5000 }, 1) := by
  have h := (collector_steering_gated mathSqrt 5000 1 rHalf 0 [c6Target]
    c6CollectorStale rfl (by with_unfolding_all decide) c6Target []
    (by with_unfolding_all decide)).1 (by with_unfolding_all decide)
    (by with_unfolding_all decide)
  rw [h]
  with_unfolding_all rfl

/-- Counterexample to C7: with the shell's `baseMax = 60` and the default
upgrade levels (`maxParticles` level 1), `initParticles` produces
`floor(60 * 1.2) = 72` particles, not 60. -/
theorem init_count_counterexample :
    (initParticles 60 defaultUpgrades rHalf 0 100 100).length ≠ 60 := by
  with_unfolding_all decide

/-- Claim C7 as amended: a fresh engine with `baseMax = 60` and the default
upgrade levels produces exactly 72 particles — `floor(baseMax * (1 +
upgrades.maxParticles * 0.2))` with the default level 1, per the claim's own
general formula — with exactly the particles at indices 0, 1, 2 marked as
targets and zero collectors. -/
theorem init_particles_spec :
    (∀ (m : ℕ) (upg : GameUpgrades) (r : ℕ → ℚ) (k : ℕ) (w h : ℚ),
      (initParticles m upg r k w h).length = effectiveMaxParticles m upg) ∧
    effectiveMaxParticles 60 defaultUpgrades = 72 ∧
    (initParticles 60 defaultUpgrades rHalf 0 100 100).length = 72 ∧
    (initParticles 60 defaultUpgrades rHalf 0 100 100).map (fun p => p.isTarget) =
      List.replicate 3 true ++ List.replicate 69 false ∧
    (initParticles 60 defaultUpgrades rHalf 0 100 100).countP
      (fun p => p.isCollector) = 0 := by
  refine ⟨?_, ?_, ?_, ?_, ?_⟩
  · intro m upg r k w h
    unfold initParticles
    rw [List.length_map, List.length_range]
  · with_unfolding_all decide
  · with_unfolding_all decide
  · with_unfolding_all decide
  · with_unfolding_all decide

/-- Counterexample to C8: the simple variant wraps.  A particle one unit
inside the left edge moving left ends the frame at the RIGHT edge
(`x = 100`) with its horizontal velocity not inverted, violating the
clamp-and-bounce contract stated by the claim. -/
theorem containment_wrap_counterexample :
    c8Particle.x + c8Particle.vx < 0 ∧
    (sIntegrateWrap 100 100 c8Particle).x = 100 ∧
    ¬ clampBounceContract 100 100 c8Particle (sIntegrateWrap 100 100 c8Particle) := by
  refine ⟨by with_unfolding_all decide, by with_unfolding_all decide, ?_⟩
  intro hcontract
  have h := hcontract.1 (by with_unfolding_all decide)
  exact absurd h.1 (by with_unfolding_all decide)

/-- Claim C8 as amended: the FULL game variant clamps and bounces — after
integration and containment every particle lies inside the canvas, a
position that crossed an edge is clamped to that edge with the
post-friction perpendicular velocity multiplied by `-0.7`, and positions
never wrap; the SIMPLE variant instead wraps to the opposite edge (see the
counterexample). -/
theorem containment_clamp_bounce (w h nd : ℚ) (p : Particle)
    (hw : 0 ≤ w) (hh : 0 ≤ h) :
    (0 ≤ (integrateContain w h nd p).x ∧ (integrateContain w h nd p).x ≤ w ∧
     0 ≤ (integrateContain w h nd p).y ∧ (integrateContain w h nd p).y ≤ h) ∧
    (p.x + p.vx * nd < 0 →
      (integrateContain w h nd p).x = 0 ∧
      (integrateContain w h nd p).vx = p.vx * 0.98 * (-0.7)) ∧
    (p.x + p.vx * nd > w →
      (integrateContain w h nd p).x = w ∧
      (integrateContain w h nd p).vx = p.vx * 0.98 * (-0.7)) ∧
    (0 ≤ p.x + p.vx * nd ∧ p.x + p.vx * nd ≤ w →
      (integrateContain w h nd p).x = p.x + p.vx * nd ∧
      (integrateContain w h nd p).vx = p.vx * 0.98) ∧
    (p.y + p.vy * nd < 0 →
      (integrateContain w h nd p).y = 0 ∧
      (integrateContain w h nd p).vy = p.vy * 0.98 * (-0.7)) ∧
    (p.y + p.vy * nd > h →
      (integrateContain w h nd p).y = h ∧
      (integrateContain w h nd p).vy = p.vy * 0.98 * (-0.7)) ∧
    (0 ≤ p.y + p.vy * nd ∧ p.y + p.vy * nd ≤ h →
      (integrateContain w h nd p).y = p.y + p.vy * nd ∧
      (integrateContain w h nd p).vy = p.vy * 0.98) := by
  unfold integrateContain
  dsimp only
  split_ifs with h1 h2 h3 h4 h5 h6 h7 h8 <;>
    refine ⟨⟨?_, ?_, ?_, ?_⟩, ?_, ?_, ?_, ?_, ?_, ?_⟩ <;>
    first
      | rfl
      | linarith
      | (intro hc; exact ⟨rfl, rfl⟩)
      | (intro hc; exfalso; linarith)

/-- Witness for the amended C8 at a concrete crossing: canvas 100 × 100,
delta factor 1, particle at x = 1 moving left by 2 — the full variant clamps
it to the left edge and inverts-attenuates its horizontal velocity. -/
theorem containment_clamp_bounce_witness :
    (0 : ℚ) ≤ 100 ∧
    c8ParticleFull.x + c8ParticleFull.vx * 1 < 0 ∧
    (integrateContain 100 100 1 c8ParticleFull).x = 0 ∧
    (integrateContain 100 100 1 c8ParticleFull).vx =
      c8ParticleFull.vx * 0.98 * (-0.7) := by
  refine ⟨by norm_num, by with_unfolding_all decide, ?_⟩
  exact (containment_clamp_bounce 100 100 1 c8ParticleFull (by norm_num)
    (by norm_num)).2.1 (by with_unfolding_all decide)
